import Mathlib

/-!
Verification of the midi-chord-detector core against its specification.

The development shallowly embeds the two core source modules:

* `core/music_theory.py` — the `ChordTheory` class: interval weights, the
  built-in chord-template table, `calculate_weighted_score`,
  `adjust_score_for_context` and `recognize_chord`.
* `core/chord_recognition_engine.py` — the note-state tracker inside
  `MIDIChordRecognizer._process_midi_message`.

Python floats are modelled as exact rationals (`ℚ`); all score constants
(0.8, 0.3, 0.05, 0.6, 1.2, ...) are exactly representable decimals, and no
claim in scope depends on binary-float rounding artifacts.  Python sets of
ints are modelled as `Finset ℕ`.  The one place the Python code can raise at
runtime for in-domain arguments (`sorted(list(played))[0]` on an empty set)
is modelled with `Except Unit`, `.error ()` standing for the `IndexError`.
-/

namespace MidiChord

-- Batteries marks the rational operations `@[irreducible]`; re-marking them
-- semireducible lets `decide` evaluate concrete scores (the kernel ignores
-- reducibility attributes, so proofs are unaffected).
attribute [local semireducible] Rat.add Rat.mul Rat.inv Rat.sub Rat.ofScientific

-- results are compared as `Except` values in several concrete checks
deriving instance DecidableEq for Except

-- concrete evaluations of the 38-template candidate fold recurse deeply
set_option maxRecDepth 40000

/-- `ChordTheory.INTERVAL_WEIGHTS`: per-interval consonance weights, looked up
with `.get(i % 12, 0.3)` (every residue is a key, so the 0.3 default is only
reachable through the explicit 0.3 entries). -/
def INTERVAL_WEIGHTS (i : ℕ) : ℚ :=
  match i % 12 with
  | 0 => 0.8
  | 3 => 1.0
  | 4 => 1.0
  | 7 => 0.5
  | 10 => 1.0
  | 11 => 1.0
  | _ => 0.3

/-- One entry of `ChordTheory.CHORD_DEFINITIONS`: identifier, display name,
core interval set, optional interval set. -/
structure ChordDef where
  id : String
  name : String
  core : Finset ℕ
  opt : Finset ℕ
deriving DecidableEq

/-- The built-in default `ChordTheory.CHORD_DEFINITIONS` table, in source
order (an `OrderedDict`, so iteration order is the insertion order below). -/
def CHORD_DEFINITIONS : List ChordDef := [
  -- MAJOR
  ⟨"maj", "Major Triad", {0, 4, 7}, ∅⟩,
  ⟨"add4", "Major Add 4", {0, 4, 7}, {5}⟩,
  ⟨"6", "Major Sixth", {0, 4, 7}, {9}⟩,
  ⟨"6/9", "Major Six Nine", {0, 4, 7}, {2, 9}⟩,
  ⟨"maj7", "Major 7th", {0, 4, 7, 11}, ∅⟩,
  ⟨"maj9", "Major 9th", {0, 4, 7, 11}, {2}⟩,
  ⟨"maj11", "Major 11th", {0, 4, 7, 11}, {2, 5}⟩,
  ⟨"maj13", "Major 13th", {0, 4, 7, 11}, {2, 5, 9}⟩,
  ⟨"maj7#11", "Major 7th Sharp 11th", {0, 4, 7, 11}, {6}⟩,
  ⟨"majb5", "Major Flat 5", {0, 4, 6}, ∅⟩,
  -- MINOR
  ⟨"min", "Minor Triad", {0, 3, 7}, ∅⟩,
  ⟨"madd4", "Minor Add 4", {0, 3, 7}, {5}⟩,
  ⟨"min6", "Minor Sixth", {0, 3, 7}, {9}⟩,
  ⟨"min7", "Minor 7th", {0, 3, 7, 10}, ∅⟩,
  ⟨"madd9", "Minor Add 9", {0, 3, 7}, {2}⟩,
  ⟨"m6/9", "Minor Six Nine", {0, 3, 7}, {2, 9}⟩,
  ⟨"min9", "Minor 9th", {0, 3, 7, 10}, {2}⟩,
  ⟨"min11", "Minor 11th", {0, 3, 7, 10}, {2, 5}⟩,
  ⟨"min13", "Minor 13th", {0, 3, 7, 10}, {2, 5, 9}⟩,
  ⟨"minMaj7", "Minor Major 7th", {0, 3, 7, 11}, ∅⟩,
  ⟨"minMaj9", "Minor Major 9th", {0, 3, 7, 11}, {2}⟩,
  ⟨"min7b5", "Half-Diminished 7th", {0, 3, 6, 10}, ∅⟩,
  -- DOMINANT
  ⟨"7", "Dominant 7th", {0, 4, 10}, {7}⟩,
  ⟨"9", "Dominant 9th", {0, 4, 10}, {2, 7}⟩,
  ⟨"11", "Dominant 11th", {0, 4, 10}, {2, 5, 7}⟩,
  ⟨"13", "Dominant 13th", {0, 4, 10}, {2, 7, 9}⟩,
  ⟨"7#5", "Dominant 7th Sharp 5", {0, 4, 10}, {8}⟩,
  ⟨"7b9", "Dominant 7th Flat 9", {0, 4, 10}, {1, 7}⟩,
  ⟨"7#9", "Dominant 7th Sharp 9", {0, 4, 10}, {3, 7}⟩,
  ⟨"7b13", "Dominant 7th Flat 13", {0, 4, 10}, {7, 8}⟩,
  ⟨"7#5b9", "Dominant 7th Sharp 5 Flat 9", {0, 4, 10}, {1, 8}⟩,
  ⟨"9#5", "Dominant 9th Sharp 5", {0, 4, 10}, {2, 8}⟩,
  -- OTHER
  ⟨"sus4", "Suspended 4th", {0, 5, 7}, ∅⟩,
  ⟨"sus2", "Suspended 2nd", {0, 2, 7}, ∅⟩,
  ⟨"7sus4", "Dominant 7th Suspended 4th", {0, 5, 10}, {7}⟩,
  ⟨"dim", "Diminished Triad", {0, 3, 6}, ∅⟩,
  ⟨"aug", "Augmented Triad", {0, 4, 8}, ∅⟩,
  ⟨"dim7", "Diminished 7th", {0, 3, 6, 9}, ∅⟩,
  ⟨"7b5", "Dominant 7th Flat 5", {0, 4, 6, 10}, ∅⟩,
  ⟨"5", "Power Chord", {0, 7}, ∅⟩]

/-- `ChordTheory.calculate_weighted_score`.  Note: when
`total_defined_weight = 0` and `optional_intervals` is nonempty the Python
raises `ZeroDivisionError`; here `ℚ` division by zero yields 0.  Every
template in scope has a nonempty core, so total weight is positive and this
point is never exercised. -/
def calculate_weighted_score (played_pcs core_intervals optional_intervals : Finset ℕ) : ℚ :=
  let matched_core := played_pcs ∩ core_intervals
  let matched_optional := played_pcs ∩ optional_intervals
  let extra_notes := played_pcs \ (core_intervals ∪ optional_intervals)
  let core_score := ∑ i ∈ matched_core, INTERVAL_WEIGHTS i
  let optional_score := ∑ i ∈ matched_optional, INTERVAL_WEIGHTS i
  let total_defined_weight := ∑ i ∈ core_intervals, INTERVAL_WEIGHTS i
  -- Python: base_score = core_score / total_defined_weight if total_defined_weight else 0.0
  let base_score := if total_defined_weight ≠ 0 then core_score / total_defined_weight else 0
  -- Python: if optional_intervals: base_score += optional_score / (total_defined_weight * 2)
  let base_score :=
    if optional_intervals.Nonempty then base_score + optional_score / (total_defined_weight * 2)
    else base_score
  let penalty := min ((extra_notes.card : ℚ) * 0.05) 0.15
  let final_score := max (base_score - penalty) 0
  -- Python: if len(core_intervals) > 3 and not core_intervals.issubset(played_pcs): return 0.0
  if 3 < core_intervals.card ∧ ¬ core_intervals ⊆ played_pcs then 0 else final_score

/-- The scoring formula exactly as the specification sentence words it
(claim C1): max(0, matched-core weight / core weight + matched-optional
weight / (2 × core weight) − min(0.05·extras, 0.15)), overridden to 0 when
the core has more than 3 offsets and is not fully played. -/
def specScoreFormula (played C O : Finset ℕ) : ℚ :=
  let wC := ∑ i ∈ C, INTERVAL_WEIGHTS i
  let raw := (∑ i ∈ played ∩ C, INTERVAL_WEIGHTS i) / wC
      + (∑ i ∈ played ∩ O, INTERVAL_WEIGHTS i) / (2 * wC)
      - min (0.05 * ((played \ (C ∪ O)).card : ℚ)) 0.15
  if 3 < C.card ∧ ¬ C ⊆ played then 0 else max 0 raw

theorem INTERVAL_WEIGHTS_pos (i : ℕ) : 0 < INTERVAL_WEIGHTS i := by
  unfold INTERVAL_WEIGHTS
  have h : i % 12 < 12 := Nat.mod_lt _ (by norm_num)
  generalize i % 12 = m at *
  interval_cases m <;> norm_num

/-! ## The recognizer (`ChordTheory.recognize_chord`) -/

/-- `ChordTheory.NOTE_PITCH_CLASSES`. -/
def NOTE_PITCH_CLASSES : List String :=
  "C" :: "C#" :: "D" :: "D#" :: "E" :: "F" ::
    "F#" :: "G" :: "G#" :: "A" :: "A#" :: "B" :: []

/-- `ChordTheory.midi_to_pitch_class_name`: "Invalid" outside `[0,127]`
(the lower bound is automatic for `ℕ`). -/
def midi_to_pitch_class_name (midi_note : ℕ) : String :=
  if midi_note ≤ 127 then NOTE_PITCH_CLASSES.getD (midi_note % 12) "Invalid"
  else "Invalid"

/-- The recognition result constructed at the end of
`ChordTheory.recognize_chord`.  The Python dict's remaining entries
(`played_root_midi_note` and the derived pitch-class/interval lists) are
determined by the same inputs and are not referenced by any claim, so they
are not carried here. -/
structure ChordResult where
  full_chord_name : String
  root_note_pc : ℕ
  root_note_name : String
  bass_note_midi : ℕ
  bass_note_pc : ℕ
  bass_note_name : String
  chord_type : String
  chord_description : String
  inversion_type : String
  score : ℚ
  played_notes_midi : List ℕ
  octave_span : ℚ
  voicing_density_description : String
deriving DecidableEq

/-- Chord types boosted for the jazz genre in `adjust_score_for_context`. -/
def JAZZ_ALTERED : List String := ["7b13", "7#5", "7b9", "7#9", "7#5b9", "9#5"]

/-- Chord types boosted as a likely V7 after a min7/min9 history entry. -/
def II_V_DOMINANTS : List String := ["7", "9", "13", "7b13", "7#5", "7b9", "7#9", "7#5b9"]

/-- Python `self.recent_chords and self.recent_chords[-1].get('chord_type')
in ['min7', 'min9']`. -/
def recent_trigger (recent : List ChordResult) : Bool :=
  match recent.getLast? with
  | some r => decide (r.chord_type ∈ (["min7", "min9"] : List String))
  | none => false

/-- `ChordTheory.adjust_score_for_context`. -/
def adjust_score_for_context (genre : String) (recent : List ChordResult)
    (chord_type : String) (score : ℚ) : ℚ :=
  let s := if genre = "jazz" ∧ chord_type ∈ JAZZ_ALTERED then score * 1.2 else score
  if recent_trigger recent ∧ chord_type ∈ II_V_DOMINANTS then s * 1.1 else s

/-- The `best_match_info` accumulator of `recognize_chord`. -/
structure BestInfo where
  score : ℚ
  root_pc : ℕ
  chord_type : Option String
  chord_desc : Option String
  core : Finset ℕ
  opt : Finset ℕ
  matched_core : Finset ℕ
  matched_optional : Finset ℕ
  extra : Finset ℕ
deriving DecidableEq

/-- The initial `best_match_info`.  Python initialises `root_pc` to `-1`;
since every candidate's score is ≥ 0 > -1 the very first candidate always
overwrites the whole record, so `root_pc` is `ℕ` here, initialised to 0. -/
def initBest : BestInfo := ⟨-1, 0, none, none, ∅, ∅, ∅, ∅, ∅⟩

/-- Python `(pc - root_pc_candidate + 12) % 12` over the played pitch-class
set; for `0 ≤ pc < 12` and `0 ≤ root < 12` this equals the `ℕ` expression
`(pc + 12 - root) % 12` used here (no truncation since `pc + 12 ≥ root`). -/
def relative_played_pcs (played_pitch_classes : Finset ℕ) (root : ℕ) : Finset ℕ :=
  played_pitch_classes.image (fun pc => (pc + 12 - root) % 12)

/-- The `best_match_info.update` record assignment shared by the better-score
and tie-break branches. -/
def updateBest (score : ℚ) (root : ℕ) (cd : ChordDef) (rel : Finset ℕ) : BestInfo :=
  ⟨score, root, some cd.id, some cd.name, cd.core, cd.opt,
    rel ∩ cd.core, rel ∩ cd.opt, rel \ (cd.core ∪ cd.opt)⟩

/-- One iteration of the inner loop of `recognize_chord`: score template
`rc.2` at root `rc.1` and fold it into the running best. -/
def considerCandidate (genre : String) (recent : List ChordResult)
    (played_pitch_classes : Finset ℕ) (best : BestInfo) (rc : ℕ × ChordDef) : BestInfo :=
  let root := rc.1
  let cd := rc.2
  let rel := relative_played_pcs played_pitch_classes root
  let score := adjust_score_for_context genre recent cd.id
      (calculate_weighted_score rel cd.core cd.opt)
  if best.score < score then updateBest score root cd rel
  else if score = best.score ∧ 0 < score then
    let current_strength := ((rel ∩ cd.core).card : ℚ) + (cd.core.card : ℚ) * 0.1
    let prev_strength := ((best.matched_core.card : ℚ)) + ((best.core.card : ℚ)) * 0.1
    if prev_strength < current_strength then updateBest score root cd rel else best
  else best

/-- The loop order of `recognize_chord`: roots 0..11 outermost, templates in
table order innermost. -/
def candidates : List (ℕ × ChordDef) :=
  (List.range 12).flatMap (fun r => CHORD_DEFINITIONS.map (fun cd => (r, cd)))

/-- The double loop of `recognize_chord` producing the final
`best_match_info`. -/
def best_match (genre : String) (recent : List ChordResult)
    (played_pitch_classes : Finset ℕ) : BestInfo :=
  candidates.foldl (considerCandidate genre recent played_pitch_classes) initBest

/-- Python's builtin `round` rounds half to even.  (`Rat.floor` rather than
`⌊·⌋`: the two agree — `Rat.floor_def'` — but the `FloorRing` projection
does not kernel-evaluate.) -/
def pyRoundHalfEven (q : ℚ) : ℤ :=
  let n := q.floor
  if q - n < 1/2 then n
  else if 1/2 < q - n then n + 1
  else if n % 2 = 0 then n else n + 1

/-- Python `round(x, 3)`. -/
def round3 (q : ℚ) : ℚ := (pyRoundHalfEven (q * 1000) : ℚ) / 1000

/-- Python `round(x, 2)`. -/
def round2 (q : ℚ) : ℚ := (pyRoundHalfEven (q * 100) : ℚ) / 100

/-- `MIN_ACCEPTABLE_CHORD_SCORE` from `music_theory.py`. -/
def MIN_ACCEPTABLE_CHORD_SCORE : ℚ := 0.6

/-- Python `sorted(list(s))`: the elements of the set in ascending order.
(Insertion sort lifted to the multiset quotient; `Finset.sort` itself is
`mergeSort`, whose well-founded recursion the kernel cannot evaluate, which
would block `decide` on concrete inputs.) -/
def sortedNotes (s : Finset ℕ) : List ℕ :=
  Quot.liftOn s.val (fun l => l.insertionSort (· ≤ ·)) fun l₁ l₂ h =>
    List.eq_of_perm_of_sorted
      ((l₁.perm_insertionSort _).trans ((Quotient.exact (Quot.sound h)).trans
        (l₂.perm_insertionSort _).symm))
      (l₁.sorted_insertionSort _) (l₂.sorted_insertionSort _)

/-- The tail of `ChordTheory.recognize_chord` (source lines 263-340): the
acceptance-threshold check and the construction of the result record from
the final `best_match_info`.  `lowest_midi_note :: rest` is the sorted
played-note list. -/
def finishRecognition (lowest_midi_note : ℕ) (rest : List ℕ) (best : BestInfo) :
    Except Unit (Option ChordResult) :=
  let sorted_played_midi_notes := lowest_midi_note :: rest
  if best.score < MIN_ACCEPTABLE_CHORD_SCORE then .ok none
  else
    let recognized_root_pc := best.root_pc
        let root_name := midi_to_pitch_class_name recognized_root_pc
        let actual_bass_pc := lowest_midi_note % 12
        let actual_bass_name := midi_to_pitch_class_name actual_bass_pc
        -- best.chord_type is always `some` here (score ≥ 0.6 > -1 means at
        -- least one update happened); `getD` supplies the unreachable default
        let chord_type_name := best.chord_type.getD ""
        let chord_desc_name := best.chord_desc.getD ""
        let bass_interval_rel_to_root := (actual_bass_pc + 12 - recognized_root_pc) % 12
        let sorted_core_intervals := sortedNotes best.core
        let full_chord_name := root_name ++ chord_type_name ++
          (if bass_interval_rel_to_root ≠ 0 then "/" ++ actual_bass_name else "")
        let inversion_text :=
          if bass_interval_rel_to_root = 0 then "Root Position"
          else
            match sorted_core_intervals.findIdx? (· = bass_interval_rel_to_root) with
            | some 1 => "1st Inversion"
            | some 2 => "2nd Inversion"
            | some 3 => "3rd Inversion"
            | some i => "Inversion (bass is " ++ toString (i + 1) ++ "th tone)"
            | none =>
              if bass_interval_rel_to_root ∈ best.opt then "Slash Chord (bass is extension)"
              else "Slash Chord (bass not a core tone)"
        let highest := sorted_played_midi_notes.getLast (List.cons_ne_nil _ _)
        let octave_span : ℚ := ((highest : ℚ) - (lowest_midi_note : ℚ)) / 12
        let voicing_density_text :=
          if 2 ≤ sorted_played_midi_notes.length then
            if sorted_played_midi_notes.length = 2 then "Interval"
            else if octave_span < 1 then "Very Close Voicing"
            else if octave_span < 1.5 then "Close Voicing"
            else if octave_span < 2.5 then "Moderately Open Voicing"
            else "Very Open (Spread) Voicing"
          else "N/A"
        .ok (some {
          full_chord_name := full_chord_name
          root_note_pc := recognized_root_pc
          root_note_name := root_name
          bass_note_midi := lowest_midi_note
          bass_note_pc := actual_bass_pc
          bass_note_name := actual_bass_name
          chord_type := chord_type_name
          chord_description := chord_desc_name
          inversion_type := inversion_text
          score := round3 best.score
          played_notes_midi := sorted_played_midi_notes
          octave_span := round2 octave_span
          voicing_density_description := voicing_density_text })

/-- `ChordTheory.recognize_chord` minus its final history append (the append
is the state update, modelled separately in `recognizeStep`).  `recent` is
the `self.recent_chords` list the call observes and `genre` is `self.genre`.
`.error ()` models the `IndexError` that Python raises at
`sorted_played_midi_notes[0]` when the played set is empty yet
`min_notes_for_chord ≤ 0` lets it past the early return. -/
def recognize_chord (genre : String) (recent : List ChordResult)
    (played_midi_notes : Finset ℕ) (min_notes_for_chord : ℕ) :
    Except Unit (Option ChordResult) :=
  if played_midi_notes.card < min_notes_for_chord then .ok none
  else
    match sortedNotes played_midi_notes with
    | [] => .error ()
    | lowest_midi_note :: rest =>
      let played_pitch_classes := played_midi_notes.image (fun n => n % 12)
      finishRecognition lowest_midi_note rest (best_match genre recent played_pitch_classes)

/-- The mutable state a `ChordTheory` instance threads between
`recognize_chord` calls: the genre plus the rolling `recent_chords` list. -/
structure TheoryState where
  genre : String
  recent_chords : List ChordResult
deriving DecidableEq

/-- One stateful `recognize_chord` call: on success the result is appended
to `recent_chords` and the oldest entry popped once the length exceeds 3
(source lines 342-344); on a no-match or the IndexError path the state is
untouched (the Python raises/returns before the append). -/
def recognizeStep (s : TheoryState) (played : Finset ℕ) (min_notes : ℕ) :
    TheoryState × Except Unit (Option ChordResult) :=
  match recognize_chord s.genre s.recent_chords played min_notes with
  | .ok (some r) =>
    let hist := s.recent_chords ++ [r]
    (⟨s.genre, if 3 < hist.length then hist.tail else hist⟩, .ok (some r))
  | other => (s, other)

/-! ## Block-wise evaluation of the candidate fold

`best_match` folds over 456 candidates; evaluating that in one `decide`
overflows the reducer, so concrete evaluations go root-block by root-block. -/

/-- The inner-loop candidate list for one root. -/
def rootBlock (r : ℕ) : List (ℕ × ChordDef) := CHORD_DEFINITIONS.map (fun cd => (r, cd))

/-- Folding one root's block of candidates into the running best. -/
def foldBlock (genre : String) (recent : List ChordResult) (pcs : Finset ℕ)
    (b : BestInfo) (r : ℕ) : BestInfo :=
  (rootBlock r).foldl (considerCandidate genre recent pcs) b

theorem foldl_flatMap {α β γ : Type} (f : β → α → β) (g : γ → List α) :
    ∀ (l : List γ) (init : β),
      (l.flatMap g).foldl f init = l.foldl (fun b x => (g x).foldl f b) init := by
  intro l
  induction l with
  | nil => intro init; rfl
  | cons x xs ih => intro init; simp only [List.flatMap_cons, List.foldl_append,
      List.foldl_cons, ih]

theorem best_match_blocks (genre : String) (recent : List ChordResult) (pcs : Finset ℕ) :
    best_match genre recent pcs =
      (List.range 12).foldl (foldBlock genre recent pcs) initBest := by
  unfold best_match candidates foldBlock rootBlock
  exact foldl_flatMap _ _ _ _

/-! ## The note-state tracker (`MIDIChordRecognizer._process_midi_message`) -/

/-- The mido message shapes `_process_midi_message` distinguishes.  `other`
stands for any message type the function ignores. -/
inductive MidiMsg where
  | noteOn (note velocity : ℕ)
  | noteOff (note : ℕ)
  | controlChange (control value : ℕ)
  | other
deriving DecidableEq

/-- The tracker state owned by `MIDIChordRecognizer`: `active_notes`,
`sustain_pedal_on`, `sustained_notes_pending_release`. -/
structure TrackerState where
  active_notes : Finset ℕ
  sustain_pedal_on : Bool
  sustained_notes_pending_release : Finset ℕ
deriving DecidableEq

/-- The state set up by `MIDIChordRecognizer.__init__`. -/
def initTracker : TrackerState := ⟨∅, false, ∅⟩

/-- The `note_off` branch (also entered by `note_on` with velocity 0). -/
def noteOffLogic (s : TrackerState) (note : ℕ) : TrackerState × Bool :=
  if s.sustain_pedal_on then
    if note ∈ s.active_notes ∧ note ∉ s.sustained_notes_pending_release then
      ({ s with sustained_notes_pending_release :=
          insert note s.sustained_notes_pending_release }, false)
    else (s, false)
  else
    let changed := decide (note ∈ s.active_notes)
    (⟨s.active_notes.erase note, s.sustain_pedal_on,
      s.sustained_notes_pending_release.erase note⟩, changed)

/-- The `control_change(64)` (sustain pedal) branch. -/
def pedalLogic (s : TrackerState) (value : ℕ) : TrackerState × Bool :=
  if 64 ≤ value then
    ({ s with sustain_pedal_on := true }, false)
  else
    if s.sustain_pedal_on then
      -- pedal_just_turned_off: release every pending note in one batch
      let notes_to_remove := s.sustained_notes_pending_release
      if notes_to_remove.Nonempty then
        (⟨s.active_notes \ notes_to_remove, false, ∅⟩, true)
      else (⟨s.active_notes, false, ∅⟩, false)
    else (s, false)

/-- `MIDIChordRecognizer._process_midi_message`: returns the new state and
the `changed` flag. -/
def processMidiMessage (s : TrackerState) (msg : MidiMsg) : TrackerState × Bool :=
  match msg with
  | .noteOn note velocity =>
    if 0 < velocity then
      let changed := decide (note ∉ s.active_notes)
      (⟨insert note s.active_notes, s.sustain_pedal_on,
        s.sustained_notes_pending_release.erase note⟩, changed)
    else noteOffLogic s note
  | .noteOff note => noteOffLogic s note
  | .controlChange control value =>
    if control = 64 then pedalLogic s value else (s, false)
  | .other => (s, false)

/-- The reachable-state invariant of the tracker (claim C10): pending
sustained releases are a subset of the active notes, and with the pedal up
no release is pending. -/
def TrackerInv (s : TrackerState) : Prop :=
  s.sustained_notes_pending_release ⊆ s.active_notes ∧
    (s.sustain_pedal_on = false → s.sustained_notes_pending_release = ∅)

instance (s : TrackerState) : Decidable (TrackerInv s) := by
  unfold TrackerInv; infer_instance

/-! ## Concrete evaluations of the recognizer

The full 456-candidate fold is evaluated one root block at a time; at every
input used below the best is reached in root block 0 and never displaced, so
one fixed point plus a block-preservation fact pin down the whole fold. -/

theorem foldl_fixed {f : BestInfo → ℕ → BestInfo} {B : BestInfo} :
    ∀ l : List ℕ, (∀ r ∈ l, f B r = B) → l.foldl f B = B := by
  intro l
  induction l with
  | nil => intro _; rfl
  | cons x xs ih =>
    intro h
    rw [List.foldl_cons, h x (List.mem_cons_self x xs)]
    exact ih fun r hr => h r (List.mem_cons_of_mem x hr)

theorem best_match_eval (genre : String) (recent : List ChordResult) (pcs : Finset ℕ)
    (B : BestInfo) (h0 : foldBlock genre recent pcs initBest 0 = B)
    (hrest : ∀ r ∈ [1, 2, 3, 4, 5, 6, 7, 8, 9, 10, 11],
      foldBlock genre recent pcs B r = B) :
    best_match genre recent pcs = B := by
  rw [best_match_blocks]
  rw [show List.range 12 = 0 :: [1, 2, 3, 4, 5, 6, 7, 8, 9, 10, 11] from rfl]
  rw [List.foldl_cons, h0]
  exact foldl_fixed _ hrest

theorem recognize_chord_eval (genre : String) (recent : List ChordResult)
    (played : Finset ℕ) (mn lowest : ℕ) (rest : List ℕ)
    (hcard : ¬ played.card < mn) (hsort : sortedNotes played = lowest :: rest) :
    recognize_chord genre recent played mn =
      finishRecognition lowest rest
        (best_match genre recent (played.image (fun n => n % 12))) := by
  unfold recognize_chord
  rw [if_neg hcard, hsort]

/-- Best match for pitch classes `{0, 3, 7, 10}` (a played min7 core) with
genre jazz: the jazz-boosted dominant `7#9` read off root 0. -/
def cmSevenB : BestInfo :=
  ⟨153/140, 0, some "7#9", some "Dominant 7th Sharp 9", {0, 4, 10}, {3, 7},
    {0, 10}, {3, 7}, ∅⟩

/-- The result of recognizing `{60, 63, 67, 70}` with genre jazz. -/
def cmSevenR : ChordResult :=
  ⟨"C7#9", 0, "C", 60, 0, "C", "7#9", "Dominant 7th Sharp 9", "Root Position",
    1093/1000, [60, 63, 67, 70], 83/100, "Very Close Voicing"⟩

theorem cmSeven_block0 : foldBlock "jazz" [] {0, 3, 7, 10} initBest 0 = cmSevenB := by
  decide

theorem cmSeven_blocks : ∀ r ∈ [1, 2, 3, 4, 5, 6, 7, 8, 9, 10, 11],
    foldBlock "jazz" [] {0, 3, 7, 10} cmSevenB r = cmSevenB := by
  decide

theorem cmSeven_eval :
    recognize_chord "jazz" [] {60, 63, 67, 70} 2 = .ok (some cmSevenR) := by
  rw [recognize_chord_eval "jazz" [] {60, 63, 67, 70} 2 60 [63, 67, 70]
      (by decide) (by decide)]
  rw [show Finset.image (fun n => n % 12) ({60, 63, 67, 70} : Finset ℕ) =
      ({0, 3, 7, 10} : Finset ℕ) from by decide]
  rw [best_match_eval _ _ _ _ cmSeven_block0 cmSeven_blocks]
  decide

/-- Best match for pitch classes `{0, 2, 3, 7, 10}` (a played min9) with
genre pop and no history. -/
def aPopB : BestInfo :=
  ⟨23/22, 0, some "min9", some "Minor 9th", {0, 3, 7, 10}, {2},
    {0, 3, 7, 10}, {2}, ∅⟩

/-- The result of recognizing `{60, 62, 63, 67, 70}` with genre pop. -/
def aPopR : ChordResult :=
  ⟨"Cmin9", 0, "C", 60, 0, "C", "min9", "Minor 9th", "Root Position",
    209/200, [60, 62, 63, 67, 70], 83/100, "Very Close Voicing"⟩

theorem aPop_block0 : foldBlock "pop" [] {0, 2, 3, 7, 10} initBest 0 = aPopB := by
  decide

theorem aPop_blocks : ∀ r ∈ [1, 2, 3, 4, 5, 6, 7, 8, 9, 10, 11],
    foldBlock "pop" [] {0, 2, 3, 7, 10} aPopB r = aPopB := by
  decide

theorem aPop_eval :
    recognize_chord "pop" [] {60, 62, 63, 67, 70} 2 = .ok (some aPopR) := by
  rw [recognize_chord_eval "pop" [] {60, 62, 63, 67, 70} 2 60 [62, 63, 67, 70]
      (by decide) (by decide)]
  rw [show Finset.image (fun n => n % 12) ({60, 62, 63, 67, 70} : Finset ℕ) =
      ({0, 2, 3, 7, 10} : Finset ℕ) from by decide]
  rw [best_match_eval _ _ _ _ aPop_block0 aPop_blocks]
  decide

/-- Best match for pitch classes `{0, 4, 10}` with genre pop and no history:
the plain dominant 7th, score 1. -/
def bFreshB : BestInfo :=
  ⟨1, 0, some "7", some "Dominant 7th", {0, 4, 10}, {7}, {0, 4, 10}, ∅, ∅⟩

/-- The result of recognizing `{60, 64, 70}` with genre pop, no history. -/
def bFreshR : ChordResult :=
  ⟨"C7", 0, "C", 60, 0, "C", "7", "Dominant 7th", "Root Position",
    1, [60, 64, 70], 83/100, "Very Close Voicing"⟩

theorem bFresh_block0 : foldBlock "pop" [] {0, 4, 10} initBest 0 = bFreshB := by
  decide

theorem bFresh_blocks : ∀ r ∈ [1, 2, 3, 4, 5, 6, 7, 8, 9, 10, 11],
    foldBlock "pop" [] {0, 4, 10} bFreshB r = bFreshB := by
  decide

theorem bFresh_eval :
    recognize_chord "pop" [] {60, 64, 70} 2 = .ok (some bFreshR) := by
  rw [recognize_chord_eval "pop" [] {60, 64, 70} 2 60 [64, 70]
      (by decide) (by decide)]
  rw [show Finset.image (fun n => n % 12) ({60, 64, 70} : Finset ℕ) =
      ({0, 4, 10} : Finset ℕ) from by decide]
  rw [best_match_eval _ _ _ _ bFresh_block0 bFresh_blocks]
  decide

/-- Best match for pitch classes `{0, 4, 10}` with genre pop when the most
recent recognized chord was a min9: the ii-V boost lifts the dominant family
to score 1.1. -/
def bAfterB : BestInfo :=
  ⟨11/10, 0, some "7", some "Dominant 7th", {0, 4, 10}, {7}, {0, 4, 10}, ∅, ∅⟩

/-- The result of recognizing `{60, 64, 70}` with genre pop right after the
min9 of `aPopR`: same chord, boosted score. -/
def bAfterR : ChordResult :=
  ⟨"C7", 0, "C", 60, 0, "C", "7", "Dominant 7th", "Root Position",
    11/10, [60, 64, 70], 83/100, "Very Close Voicing"⟩

theorem bAfter_block0 : foldBlock "pop" [aPopR] {0, 4, 10} initBest 0 = bAfterB := by
  decide

theorem bAfter_blocks : ∀ r ∈ [1, 2, 3, 4, 5, 6, 7, 8, 9, 10, 11],
    foldBlock "pop" [aPopR] {0, 4, 10} bAfterB r = bAfterB := by
  decide

theorem bAfter_eval :
    recognize_chord "pop" [aPopR] {60, 64, 70} 2 = .ok (some bAfterR) := by
  rw [recognize_chord_eval "pop" [aPopR] {60, 64, 70} 2 60 [64, 70]
      (by decide) (by decide)]
  rw [show Finset.image (fun n => n % 12) ({60, 64, 70} : Finset ℕ) =
      ({0, 4, 10} : Finset ℕ) from by decide]
  rw [best_match_eval _ _ _ _ bAfter_block0 bAfter_blocks]
  decide

/-! ## Tracker lemmas -/

theorem noteOffLogic_changed (s : TrackerState) (note : ℕ) :
    ((noteOffLogic s note).2 = true ↔ (noteOffLogic s note).1.active_notes ≠ s.active_notes) := by
  unfold noteOffLogic
  by_cases hped : s.sustain_pedal_on
  · rw [if_pos hped]
    by_cases hmem : note ∈ s.active_notes ∧ note ∉ s.sustained_notes_pending_release
    · rw [if_pos hmem]; simp
    · rw [if_neg hmem]; simp
  · rw [if_neg hped]
    simp only [decide_eq_true_eq]
    constructor
    · intro hm heq
      exact absurd (Finset.erase_eq_self.mp heq) (by simpa using hm)
    · intro hne
      by_contra hm
      exact hne (Finset.erase_eq_self.mpr (by simpa using hm))

theorem pedalLogic_changed (s : TrackerState) (v : ℕ) (hinv : TrackerInv s) :
    ((pedalLogic s v).2 = true ↔ (pedalLogic s v).1.active_notes ≠ s.active_notes) := by
  unfold pedalLogic
  by_cases hv : 64 ≤ v
  · rw [if_pos hv]; simp
  · rw [if_neg hv]
    by_cases hped : s.sustain_pedal_on
    · rw [if_pos hped]
      by_cases hne : s.sustained_notes_pending_release.Nonempty
      · rw [if_pos hne]
        simp only [true_iff]
        obtain ⟨x, hx⟩ := hne
        intro heq
        have hxa : x ∈ s.active_notes := hinv.1 hx
        have hmem : x ∈ s.active_notes \ s.sustained_notes_pending_release := by
          rw [heq]; exact hxa
        exact (Finset.mem_sdiff.mp hmem).2 hx
      · rw [if_neg hne]; simp
    · rw [if_neg hped]; simp

theorem process_changed (s : TrackerState) (msg : MidiMsg) (hinv : TrackerInv s) :
    ((processMidiMessage s msg).2 = true ↔
      (processMidiMessage s msg).1.active_notes ≠ s.active_notes) := by
  cases msg with
  | noteOn note velocity =>
    simp only [processMidiMessage]
    by_cases hv : 0 < velocity
    · rw [if_pos hv]
      simp only [decide_eq_true_eq]
      constructor
      · intro hm heq
        exact hm (Finset.insert_eq_self.mp heq)
      · intro hne hm
        exact hne (Finset.insert_eq_self.mpr hm)
    · rw [if_neg hv]
      exact noteOffLogic_changed s note
  | noteOff note =>
    simp only [processMidiMessage]
    exact noteOffLogic_changed s note
  | controlChange c v =>
    simp only [processMidiMessage]
    by_cases hc : c = 64
    · rw [if_pos hc]
      exact pedalLogic_changed s v hinv
    · rw [if_neg hc]; simp
  | other => simp [processMidiMessage]

theorem noteOffLogic_inv (s : TrackerState) (note : ℕ) (hinv : TrackerInv s) :
    TrackerInv (noteOffLogic s note).1 := by
  obtain ⟨hsub, hemp⟩ := hinv
  unfold noteOffLogic
  by_cases hped : s.sustain_pedal_on
  · rw [if_pos hped]
    by_cases hmem : note ∈ s.active_notes ∧ note ∉ s.sustained_notes_pending_release
    · rw [if_pos hmem]
      exact ⟨Finset.insert_subset hmem.1 hsub, by simp [hped]⟩
    · rw [if_neg hmem]
      exact ⟨hsub, by simp [hped]⟩
  · rw [if_neg hped]
    refine ⟨Finset.erase_subset_erase _ hsub, fun _ => ?_⟩
    rw [hemp (by simpa using hped), Finset.erase_empty]

theorem process_inv (s : TrackerState) (msg : MidiMsg) (hinv : TrackerInv s) :
    TrackerInv (processMidiMessage s msg).1 := by
  cases msg with
  | noteOn note velocity =>
    simp only [processMidiMessage]
    by_cases hv : 0 < velocity
    · rw [if_pos hv]
      refine ⟨(Finset.erase_subset _ _).trans (hinv.1.trans (Finset.subset_insert _ _)), ?_⟩
      intro hped
      rw [hinv.2 hped, Finset.erase_empty]
    · rw [if_neg hv]
      exact noteOffLogic_inv s note hinv
  | noteOff note =>
    simp only [processMidiMessage]
    exact noteOffLogic_inv s note hinv
  | controlChange c v =>
    simp only [processMidiMessage]
    by_cases hc : c = 64
    · rw [if_pos hc]
      unfold pedalLogic
      by_cases hv : 64 ≤ v
      · rw [if_pos hv]
        exact ⟨hinv.1, by simp⟩
      · rw [if_neg hv]
        by_cases hped : s.sustain_pedal_on
        · rw [if_pos hped]
          by_cases hne : s.sustained_notes_pending_release.Nonempty
          · rw [if_pos hne]
            exact ⟨Finset.empty_subset _, fun _ => rfl⟩
          · rw [if_neg hne]
            exact ⟨Finset.empty_subset _, fun _ => rfl⟩
        · rw [if_neg hped]
          exact hinv
    · rw [if_neg hc]
      exact hinv
  | other => exact hinv

/-! ## Rounding and threshold lemmas -/

theorem pyRoundHalfEven_ge_floor (q : ℚ) : q.floor ≤ pyRoundHalfEven q := by
  simp only [pyRoundHalfEven]
  split_ifs <;> omega

theorem round3_ge_threshold {q : ℚ} (h : 3/5 ≤ q) : 3/5 ≤ round3 q := by
  have h600 : (600 : ℤ) ≤ (q * 1000).floor := Rat.le_floor.mpr (by push_cast; linarith)
  have hR : (600 : ℤ) ≤ pyRoundHalfEven (q * 1000) :=
    le_trans h600 (pyRoundHalfEven_ge_floor _)
  have hQ : (600 : ℚ) ≤ (pyRoundHalfEven (q * 1000) : ℚ) := by exact_mod_cast hR
  unfold round3
  linarith

/-! ## finishRecognition case facts -/

theorem finish_ok_none_iff (lowest : ℕ) (rest : List ℕ) (best : BestInfo) :
    (finishRecognition lowest rest best = .ok none ↔
      best.score < MIN_ACCEPTABLE_CHORD_SCORE) := by
  simp only [finishRecognition]
  split
  next h => simp [h]
  next h => simp [h]

theorem finish_ne_error (lowest : ℕ) (rest : List ℕ) (best : BestInfo) :
    finishRecognition lowest rest best ≠ .error () := by
  simp only [finishRecognition]
  split <;> simp

theorem finish_some_score (lowest : ℕ) (rest : List ℕ) (best : BestInfo) (r : ChordResult)
    (h : finishRecognition lowest rest best = .ok (some r)) :
    r.score = round3 best.score ∧ ¬ best.score < MIN_ACCEPTABLE_CHORD_SCORE := by
  simp only [finishRecognition] at h
  split at h
  next hb => exact absurd h (by simp)
  next hb =>
    simp only [Except.ok.injEq, Option.some.injEq] at h
    subst h
    exact ⟨rfl, hb⟩

/-! ## sortedNotes facts -/

theorem sortedNotes_length (s : Finset ℕ) : (sortedNotes s).length = s.card := by
  rcases s with ⟨m, hm⟩
  induction m using Quot.inductionOn with
  | h l =>
    show (l.insertionSort (· ≤ ·)).length = (Multiset.ofList l).card
    rw [List.length_insertionSort, Multiset.coe_card]

theorem sortedNotes_cons_of_nonempty {s : Finset ℕ} (h : s.Nonempty) :
    ∃ lo rest, sortedNotes s = lo :: rest := by
  cases hs : sortedNotes s with
  | nil =>
    have := sortedNotes_length s
    rw [hs] at this
    simp only [List.length_nil] at this
    exact absurd (Finset.card_pos.mpr h) (by omega)
  | cons a l => exact ⟨a, l, rfl⟩

/-! ## C2: no-match conditions -/

theorem recognize_none_iff (genre : String) (recent : List ChordResult)
    (played : Finset ℕ) (mn : ℕ) (h : played.Nonempty ∨ 1 ≤ mn) :
    recognize_chord genre recent played mn ≠ .error () ∧
    (recognize_chord genre recent played mn = .ok none ↔
      (played.card < mn ∨
        (best_match genre recent (played.image (fun n => n % 12))).score
          < MIN_ACCEPTABLE_CHORD_SCORE)) := by
  by_cases hc : played.card < mn
  · constructor
    · unfold recognize_chord
      rw [if_pos hc]
      simp
    · unfold recognize_chord
      rw [if_pos hc]
      simp [hc]
  · have hne : played.Nonempty := by
      rcases h with h | h
      · exact h
      · exact Finset.card_pos.mp (by omega)
    obtain ⟨lo, rest, hsort⟩ := sortedNotes_cons_of_nonempty hne
    rw [recognize_chord_eval genre recent played mn lo rest hc hsort]
    refine ⟨finish_ne_error _ _ _, ?_⟩
    rw [finish_ok_none_iff]
    simp [hc]

/-! ## C7 (amended): every returned score is at least the threshold -/

theorem recognize_some_facts (genre : String) (recent : List ChordResult)
    (played : Finset ℕ) (mn : ℕ) (r : ChordResult)
    (h : recognize_chord genre recent played mn = .ok (some r)) :
    r.score = round3 (best_match genre recent (played.image (fun n => n % 12))).score ∧
    ¬ (best_match genre recent (played.image (fun n => n % 12))).score
        < MIN_ACCEPTABLE_CHORD_SCORE := by
  simp only [recognize_chord] at h
  split at h
  · exact absurd h (by simp)
  · split at h
    · exact absurd h (by simp)
    · exact finish_some_score _ _ _ _ h

theorem recognize_score_ge_threshold (genre : String) (recent : List ChordResult)
    (played : Finset ℕ) (mn : ℕ) (r : ChordResult)
    (h : recognize_chord genre recent played mn = .ok (some r)) :
    3/5 ≤ r.score := by
  obtain ⟨hs, hb⟩ := recognize_some_facts genre recent played mn r h
  rw [hs]
  refine round3_ge_threshold (le_trans ?_ (not_lt.mp hb))
  norm_num [MIN_ACCEPTABLE_CHORD_SCORE]

/-! ## The best score dominates every candidate's score -/

/-- The context-adjusted score one candidate `(root, template)` receives in
the loop of `recognize_chord`. -/
def candScore (genre : String) (recent : List ChordResult) (pcs : Finset ℕ)
    (c : ℕ × ChordDef) : ℚ :=
  adjust_score_for_context genre recent c.2.id
    (calculate_weighted_score (relative_played_pcs pcs c.1) c.2.core c.2.opt)

theorem considerCandidate_score_le (genre : String) (recent : List ChordResult)
    (pcs : Finset ℕ) (b : BestInfo) (c : ℕ × ChordDef) :
    b.score ≤ (considerCandidate genre recent pcs b c).score := by
  simp only [considerCandidate, updateBest]
  split_ifs with h1 h2 h3
  · exact le_of_lt h1
  · exact le_of_eq h2.1.symm
  · exact le_refl _
  · exact le_refl _

theorem considerCandidate_ge_cand (genre : String) (recent : List ChordResult)
    (pcs : Finset ℕ) (b : BestInfo) (c : ℕ × ChordDef) :
    candScore genre recent pcs c ≤ (considerCandidate genre recent pcs b c).score := by
  simp only [considerCandidate, updateBest, candScore]
  split_ifs with h1 h2 h3
  · exact le_of_eq rfl
  · exact le_of_eq rfl
  · exact le_of_eq h2.1
  · exact le_of_not_lt h1

theorem foldl_score_mono (genre : String) (recent : List ChordResult) (pcs : Finset ℕ) :
    ∀ (l : List (ℕ × ChordDef)) (b : BestInfo),
      b.score ≤ (l.foldl (considerCandidate genre recent pcs) b).score := by
  intro l
  induction l with
  | nil => intro b; exact le_refl _
  | cons c cs ih =>
    intro b
    rw [List.foldl_cons]
    exact le_trans (considerCandidate_score_le genre recent pcs b c) (ih _)

theorem foldl_score_ge_mem (genre : String) (recent : List ChordResult) (pcs : Finset ℕ) :
    ∀ (l : List (ℕ × ChordDef)) (b : BestInfo) (c : ℕ × ChordDef), c ∈ l →
      candScore genre recent pcs c ≤ (l.foldl (considerCandidate genre recent pcs) b).score := by
  intro l
  induction l with
  | nil => intro b c hc; exact absurd hc (List.not_mem_nil c)
  | cons d ds ih =>
    intro b c hc
    rw [List.foldl_cons]
    rcases List.mem_cons.mp hc with rfl | hc'
    · exact le_trans (considerCandidate_ge_cand genre recent pcs b c)
        (foldl_score_mono genre recent pcs ds _)
    · exact ih _ c hc'

theorem best_match_ge_cand (genre : String) (recent : List ChordResult) (pcs : Finset ℕ)
    (c : ℕ × ChordDef) (hc : c ∈ candidates) :
    candScore genre recent pcs c ≤ (best_match genre recent pcs).score :=
  foldl_score_ge_mem genre recent pcs candidates initBest c hc

theorem zero_cd_mem_candidates (cd : ChordDef) (hcd : cd ∈ CHORD_DEFINITIONS) :
    ((0 : ℕ), cd) ∈ candidates := by
  unfold candidates
  exact List.mem_flatMap.mpr ⟨0, by simp, List.mem_map_of_mem _ hcd⟩

/-! ## Scoring the exact core -/

theorem sum_weights_nonneg (s : Finset ℕ) : 0 ≤ ∑ i ∈ s, INTERVAL_WEIGHTS i :=
  Finset.sum_nonneg fun i _ => le_of_lt (INTERVAL_WEIGHTS_pos i)

theorem calc_nonneg (p C O : Finset ℕ) : 0 ≤ calculate_weighted_score p C O := by
  simp only [calculate_weighted_score]
  split
  · exact le_refl _
  · exact le_max_right _ _

theorem adjust_ge_self (genre : String) (recent : List ChordResult) (ct : String)
    {s : ℚ} (hs : 0 ≤ s) : s ≤ adjust_score_for_context genre recent ct s := by
  unfold adjust_score_for_context
  split_ifs <;> nlinarith

theorem calc_core_exact_ge_one (C O : Finset ℕ) (h : C.Nonempty) :
    1 ≤ calculate_weighted_score C C O := by
  have hpos : 0 < ∑ i ∈ C, INTERVAL_WEIGHTS i :=
    Finset.sum_pos (fun i _ => INTERVAL_WEIGHTS_pos i) h
  simp only [calculate_weighted_score, Finset.inter_self]
  rw [if_neg (by simp : ¬(3 < C.card ∧ ¬ C ⊆ C))]
  rw [if_pos hpos.ne']
  rw [Finset.sdiff_eq_empty_iff_subset.mpr Finset.subset_union_left]
  rw [div_self hpos.ne']
  simp only [Finset.card_empty, Nat.cast_zero, zero_mul]
  rw [min_eq_left (by norm_num : (0:ℚ) ≤ 0.15), sub_zero]
  have hopt : 0 ≤ (∑ i ∈ C ∩ O, INTERVAL_WEIGHTS i) /
      ((∑ i ∈ C, INTERVAL_WEIGHTS i) * 2) :=
    div_nonneg (sum_weights_nonneg _) (by linarith)
  split_ifs with hO
  · exact le_trans (by linarith) (le_max_left _ _)
  · exact le_trans (by linarith) (le_max_left _ _)

/-! ## Core-note sets round-tripped through MIDI notes -/

theorem coreNotes_pcs (core : Finset ℕ) (hsub : core ⊆ Finset.range 12) :
    (core.image (fun o => 60 + o)).image (fun n => n % 12) = core := by
  rw [Finset.image_image]
  have h : ∀ o ∈ core, ((fun n => n % 12) ∘ (fun o => 60 + o)) o = id o := by
    intro o ho
    have h12 : o < 12 := Finset.mem_range.mp (hsub ho)
    simp only [Function.comp_apply, id_eq]
    omega
  rw [Finset.image_congr h, Finset.image_id]

theorem relative_root_zero (pcs : Finset ℕ) (hsub : pcs ⊆ Finset.range 12) :
    relative_played_pcs pcs 0 = pcs := by
  unfold relative_played_pcs
  have h : ∀ pc ∈ pcs, (pc + 12 - 0) % 12 = id pc := by
    intro pc hpc
    have h12 : pc < 12 := Finset.mem_range.mp (hsub hpc)
    simp only [id_eq]
    omega
  rw [Finset.image_congr h, Finset.image_id]

theorem table_core_facts : ∀ cd ∈ CHORD_DEFINITIONS,
    cd.core.Nonempty ∧ 2 ≤ cd.core.card ∧ cd.core ⊆ Finset.range 12 := by decide

/-! ## C6 (amended): every exact core set is accepted -/

theorem core_roundtrip_accepted (genre : String) (recent : List ChordResult)
    (cd : ChordDef) (hcd : cd ∈ CHORD_DEFINITIONS) :
    ∃ r, recognize_chord genre recent (cd.core.image (fun o => 60 + o)) 2 =
        .ok (some r) ∧ 3/5 ≤ r.score := by
  obtain ⟨hne, hcard2, hsub⟩ := table_core_facts cd hcd
  have hpcs : (cd.core.image (fun o => 60 + o)).image (fun n => n % 12) = cd.core :=
    coreNotes_pcs _ hsub
  have hinj : Function.Injective (fun o : ℕ => 60 + o) := fun a b hab => by
    simpa using hab
  have hcard : ¬ (cd.core.image (fun o => 60 + o)).card < 2 := by
    rw [Finset.card_image_of_injective _ hinj]
    omega
  obtain ⟨lo, rest, hsort⟩ := sortedNotes_cons_of_nonempty (hne.image _)
  have hbest : (1:ℚ) ≤ (best_match genre recent cd.core).score := by
    have h1 : candScore genre recent cd.core (0, cd) =
        adjust_score_for_context genre recent cd.id
          (calculate_weighted_score cd.core cd.core cd.opt) := by
      unfold candScore
      rw [relative_root_zero _ hsub]
    calc (1:ℚ)
        ≤ calculate_weighted_score cd.core cd.core cd.opt :=
          calc_core_exact_ge_one _ _ hne
      _ ≤ adjust_score_for_context genre recent cd.id
            (calculate_weighted_score cd.core cd.core cd.opt) :=
          adjust_ge_self genre recent cd.id (calc_nonneg _ _ _)
      _ = candScore genre recent cd.core (0, cd) := h1.symm
      _ ≤ (best_match genre recent cd.core).score :=
          best_match_ge_cand genre recent cd.core (0, cd)
            (zero_cd_mem_candidates cd hcd)
  have hnotlt : ¬ (best_match genre recent cd.core).score
      < MIN_ACCEPTABLE_CHORD_SCORE := by
    refine not_lt.mpr (le_trans ?_ hbest)
    norm_num [MIN_ACCEPTABLE_CHORD_SCORE]
  rw [recognize_chord_eval genre recent _ 2 lo rest hcard hsort, hpcs]
  simp only [finishRecognition]
  rw [if_neg hnotlt]
  exact ⟨_, rfl, round3_ge_threshold (le_trans (by norm_num) hbest)⟩

/-! ## C8 (amended): history enters only through the last-chord trigger -/

theorem recognize_depends_on_trigger (genre : String) (h1 h2 : List ChordResult)
    (played : Finset ℕ) (mn : ℕ) (h : recent_trigger h1 = recent_trigger h2) :
    recognize_chord genre h1 played mn = recognize_chord genre h2 played mn := by
  have hadj : adjust_score_for_context genre h1 = adjust_score_for_context genre h2 := by
    funext ct sc
    unfold adjust_score_for_context
    rw [h]
  have hcc : considerCandidate genre h1 = considerCandidate genre h2 := by
    funext pcs b c
    unfold considerCandidate
    rw [hadj]
  have hbm : ∀ pcs, best_match genre h1 pcs = best_match genre h2 pcs := by
    intro pcs
    unfold best_match
    rw [hcc]
  unfold recognize_chord
  simp only [hbm]

theorem double_noteOn (s : TrackerState) (note velocity : ℕ) (hv : 0 < velocity) :
    (processMidiMessage (processMidiMessage s (.noteOn note velocity)).1
      (.noteOn note velocity)).2 = false := by
  simp only [processMidiMessage]
  rw [if_pos hv]
  rw [if_pos hv]
  simp

/-! ## Claims -/

/-- Claim C1: for every played relative pitch-class set and every template
with core offsets C (nonempty, so the core weight the claim divides by is
nonzero) and optional offsets O, the matcher's score equals
max(0, w(played∩C)/w(C) + w(played∩O)/(2·w(C)) − min(0.05·|extras|, 0.15)),
forced to 0 when |C| > 3 and C is not a subset of the played set. -/
theorem claim_C1 (played C O : Finset ℕ) (h : C.Nonempty) :
    calculate_weighted_score played C O = specScoreFormula played C O := by
  have hpos : 0 < ∑ i ∈ C, INTERVAL_WEIGHTS i :=
    Finset.sum_pos (fun i _ => INTERVAL_WEIGHTS_pos i) h
  simp only [calculate_weighted_score, specScoreFormula, ne_eq, hpos.ne',
    not_false_eq_true, if_true]
  by_cases hO : O.Nonempty
  · rw [if_pos hO]
    split_ifs with hP
    · rfl
    · rw [max_comm]
      ring_nf
  · rw [if_neg hO]
    rw [Finset.not_nonempty_iff_eq_empty.mp hO, Finset.inter_empty, Finset.sum_empty,
      zero_div, add_zero]
    split_ifs with hP
    · rfl
    · rw [max_comm]
      ring_nf

/-- Witness for C1 at a concrete dominant-shaped input. -/
theorem claim_C1_witness :
    ({0, 4, 7} : Finset ℕ).Nonempty ∧
    calculate_weighted_score {0, 4, 7, 9} {0, 4, 7} {2, 9} =
      specScoreFormula {0, 4, 7, 9} {0, 4, 7} {2, 9} :=
  ⟨by decide, claim_C1 {0, 4, 7, 9} {0, 4, 7} {2, 9} (by decide)⟩

/-- Claim C2 (counterexample): with the empty played set and min_notes = 0
the early return does not fire and Python raises IndexError at
sorted_played_midi_notes[0] (modelled as `.error ()`) instead of
returning no match. -/
theorem claim_C2_counterexample :
    recognize_chord "jazz" [] (∅ : Finset ℕ) 0 = .error () := by decide

/-- Claim C2 (amended): provided the played set is nonempty or min_notes is
at least 1, recognize_chord never raises, and returns no result exactly when
the played set has fewer than min_notes elements or the best candidate's
context-adjusted score is below the acceptance threshold 0.6. -/
theorem claim_C2 (genre : String) (recent : List ChordResult) (played : Finset ℕ)
    (mn : ℕ) (h : played.Nonempty ∨ 1 ≤ mn) :
    recognize_chord genre recent played mn ≠ .error () ∧
    (recognize_chord genre recent played mn = .ok none ↔
      (played.card < mn ∨
        (best_match genre recent (played.image (fun n => n % 12))).score
          < MIN_ACCEPTABLE_CHORD_SCORE)) :=
  recognize_none_iff genre recent played mn h

/-- Witness for C2: two played notes against min_notes = 5. -/
theorem claim_C2_witness :
    recognize_chord "jazz" [] {60, 61} 5 ≠ .error () ∧
    (recognize_chord "jazz" [] {60, 61} 5 = .ok none ↔
      (({60, 61} : Finset ℕ).card < 5 ∨
        (best_match "jazz" [] (({60, 61} : Finset ℕ).image (fun n => n % 12))).score
          < MIN_ACCEPTABLE_CHORD_SCORE)) :=
  claim_C2 "jazz" [] {60, 61} 5 (Or.inl (by decide))

/-- Claim C3: on every invariant-respecting tracker state,
_process_midi_message returns true exactly when the active note set changed,
and a repeated NoteOn (velocity > 0) returns false the second time. -/
theorem claim_C3 (s : TrackerState) (msg : MidiMsg) (note velocity : ℕ)
    (hinv : TrackerInv s) (hv : 0 < velocity) :
    ((processMidiMessage s msg).2 = true ↔
      (processMidiMessage s msg).1.active_notes ≠ s.active_notes) ∧
    (processMidiMessage (processMidiMessage s (.noteOn note velocity)).1
      (.noteOn note velocity)).2 = false :=
  ⟨process_changed s msg hinv, double_noteOn s note velocity hv⟩

/-- Witness for C3 at the initial state and NoteOn(60). -/
theorem claim_C3_witness :
    TrackerInv initTracker ∧ (0:ℕ) < 64 ∧
    (((processMidiMessage initTracker (.noteOn 60 64)).2 = true ↔
      (processMidiMessage initTracker (.noteOn 60 64)).1.active_notes ≠
        initTracker.active_notes) ∧
    (processMidiMessage (processMidiMessage initTracker (.noteOn 60 64)).1
      (.noteOn 60 64)).2 = false) :=
  ⟨by decide, by decide,
    claim_C3 initTracker (.noteOn 60 64) 60 64 (by decide) (by decide)⟩

/-- The tracker state after NoteOn(60), SustainPedal(down), NoteOff(60). -/
def pedalTrace : TrackerState :=
  (processMidiMessage (processMidiMessage (processMidiMessage initTracker
    (.noteOn 60 64)).1 (.controlChange 64 127)).1 (.noteOff 60)).1

/-- Claim C4: after NoteOn(60), pedal down, NoteOff(60), note 60 still sounds
(held by the pedal only); the subsequent pedal release reports changed and
empties the sounding set. -/
theorem claim_C4 :
    60 ∈ pedalTrace.active_notes ∧
    60 ∈ pedalTrace.sustained_notes_pending_release ∧
    (processMidiMessage pedalTrace (.controlChange 64 0)).2 = true ∧
    (processMidiMessage pedalTrace (.controlChange 64 0)).1.active_notes = ∅ := by
  decide

/-- Claim C5 (counterexample): scoring the relative set with the built-in
dominant-13th template does not give 0 — the missing core third does not
trigger the zero rule, because that rule tests core size, not total size. -/
theorem claim_C5_counterexample :
    (⟨"13", "Dominant 13th", {0, 4, 10}, {2, 7, 9}⟩ : ChordDef) ∈ CHORD_DEFINITIONS ∧
    calculate_weighted_score {0, 2, 10} {0, 4, 10} {2, 7, 9} ≠ 0 := by decide

/-- Claim C5 (amended): the dominant-13th template has exactly 3 core
offsets, so the structural rule (which requires more than 3 core offsets,
not more than 3 total defined offsets) does not apply, and the set
yields score 39/56 ≈ 0.696. -/
theorem claim_C5 :
    (⟨"13", "Dominant 13th", {0, 4, 10}, {2, 7, 9}⟩ : ChordDef) ∈ CHORD_DEFINITIONS ∧
    calculate_weighted_score {0, 2, 10} {0, 4, 10} {2, 7, 9} = 39/56 ∧
    ¬ 3 < ({0, 4, 10} : Finset ℕ).card := by decide

/-- Claim C6 (counterexample): the min7 template's exact core-offset note
set is recognized as a jazz-boosted dominant 7#9, not as min7. -/
theorem claim_C6_counterexample :
    (⟨"min7", "Minor 7th", {0, 3, 7, 10}, ∅⟩ : ChordDef) ∈ CHORD_DEFINITIONS ∧
    ({0, 3, 7, 10} : Finset ℕ).image (fun o => 60 + o) = {60, 63, 67, 70} ∧
    recognize_chord "jazz" [] {60, 63, 67, 70} 2 = .ok (some cmSevenR) ∧
    cmSevenR.chord_type = "7#9" ∧ ¬ cmSevenR.chord_type = "min7" :=
  ⟨by decide, by decide, cmSeven_eval, by decide, by decide⟩

/-- Claim C6 (amended): for every built-in template, recognizing the exact
core-offset note set returns a result whose score is at least the acceptance
threshold 0.6, but the returned identifier need not be that template's. -/
theorem claim_C6 (genre : String) (recent : List ChordResult) (cd : ChordDef)
    (hcd : cd ∈ CHORD_DEFINITIONS) :
    ∃ r, recognize_chord genre recent (cd.core.image (fun o => 60 + o)) 2 =
      .ok (some r) ∧ 3/5 ≤ r.score :=
  core_roundtrip_accepted genre recent cd hcd

/-- Witness for C6 at the major-triad template. -/
theorem claim_C6_witness :
    (⟨"maj", "Major Triad", {0, 4, 7}, ∅⟩ : ChordDef) ∈ CHORD_DEFINITIONS ∧
    ∃ r, recognize_chord "jazz" []
        ((⟨"maj", "Major Triad", {0, 4, 7}, ∅⟩ : ChordDef).core.image (fun o => 60 + o)) 2 =
      .ok (some r) ∧ 3/5 ≤ r.score :=
  ⟨by decide, claim_C6 "jazz" [] ⟨"maj", "Major Triad", {0, 4, 7}, ∅⟩ (by decide)⟩

/-- Claim C7 (counterexample): a returned confidence score above 1 — the
jazz genre boost lifts 7#9 to 1.093 on a played min7 core. -/
theorem claim_C7_counterexample :
    recognize_chord "jazz" [] {60, 63, 67, 70} 2 = .ok (some cmSevenR) ∧
    cmSevenR.score = 1093/1000 ∧ ¬ cmSevenR.score ≤ 1 :=
  ⟨cmSeven_eval, by decide, by decide⟩

/-- Claim C7 (amended): every ChordResult returned by recognize_chord has a
score of at least the acceptance threshold 0.6 (genre boosts can push it
above 1, so the interval [0,1] of the original claim does not hold). -/
theorem claim_C7 (genre : String) (recent : List ChordResult) (played : Finset ℕ)
    (mn : ℕ) (r : ChordResult)
    (h : recognize_chord genre recent played mn = .ok (some r)) :
    3/5 ≤ r.score :=
  recognize_score_ge_threshold genre recent played mn r h

/-- Witness for C7 at the concrete 7#9 recognition. -/
theorem claim_C7_witness : 3/5 ≤ cmSevenR.score :=
  claim_C7 "jazz" [] {60, 63, 67, 70} 2 cmSevenR cmSeven_eval

/-- Claim C8 (counterexample): recognize_chord is not stateless across
calls — after a min9 is recognized (and appended to the rolling history),
the same dominant-7th input returns a different (boosted) result than it
does with no prior call. -/
theorem claim_C8_counterexample :
    (recognizeStep (recognizeStep ⟨"pop", []⟩ {60, 62, 63, 67, 70} 2).1
        {60, 64, 70} 2).2 ≠
      (recognizeStep ⟨"pop", []⟩ {60, 64, 70} 2).2 := by
  have h1 : recognizeStep ⟨"pop", []⟩ ({60, 62, 63, 67, 70} : Finset ℕ) 2 =
      (⟨"pop", [aPopR]⟩, .ok (some aPopR)) := by
    unfold recognizeStep
    rw [aPop_eval]
    rfl
  have h2 : recognizeStep ⟨"pop", [aPopR]⟩ ({60, 64, 70} : Finset ℕ) 2 =
      (⟨"pop", [aPopR, bAfterR]⟩, .ok (some bAfterR)) := by
    unfold recognizeStep
    rw [bAfter_eval]
    rfl
  have h3 : recognizeStep ⟨"pop", []⟩ ({60, 64, 70} : Finset ℕ) 2 =
      (⟨"pop", [bFreshR]⟩, .ok (some bFreshR)) := by
    unfold recognizeStep
    rw [bFresh_eval]
    rfl
  rw [h1, h2, h3]
  decide

/-- Claim C8 (amended): recognize_chord reads the mutable recent-chord
history, but only through whether the most recent entry's chord type is
min7 or min9; two calls with identical arguments and identical trigger
status return identical results. -/
theorem claim_C8 (genre : String) (h1 h2 : List ChordResult) (played : Finset ℕ)
    (mn : ℕ) (h : recent_trigger h1 = recent_trigger h2) :
    recognize_chord genre h1 played mn = recognize_chord genre h2 played mn :=
  recognize_depends_on_trigger genre h1 h2 played mn h

/-- Witness for C8: empty history versus a non-triggering one-entry history. -/
theorem claim_C8_witness :
    recent_trigger [] = recent_trigger [cmSevenR] ∧
    recognize_chord "jazz" [] {60, 64, 67} 2 =
      recognize_chord "jazz" [cmSevenR] {60, 64, 67} 2 :=
  ⟨by decide, claim_C8 "jazz" [] [cmSevenR] {60, 64, 67} 2 (by decide)⟩

/-- Claim C9 (counterexample): an out-of-range NoteOn (note 200) is not
rejected — no error exists in _process_midi_message — and it does change the
tracker state. -/
theorem claim_C9_counterexample :
    (processMidiMessage initTracker (.noteOn 200 64)).1 ≠ initTracker ∧
    (processMidiMessage initTracker (.noteOn 200 64)).1.active_notes = {200} ∧
    (processMidiMessage initTracker (.noteOn 200 64)).2 = true := by decide

/-- Claim C9 (amended): the tracker performs no range validation: a NoteOn
with any note number above 127 is handled by the ordinary note-on logic,
entering the active set and reporting a change. -/
theorem claim_C9 (note : ℕ) (h : 127 < note) :
    processMidiMessage initTracker (.noteOn note 64) =
      (⟨{note}, false, ∅⟩, true) := by
  simp only [processMidiMessage, initTracker]
  rw [if_pos (by norm_num : (0:ℕ) < 64)]
  simp [Finset.erase_empty]

/-- Witness for C9 at note 200. -/
theorem claim_C9_witness :
    (127:ℕ) < 200 ∧
    processMidiMessage initTracker (.noteOn 200 64) = (⟨{200}, false, ∅⟩, true) :=
  ⟨by decide, claim_C9 200 (by decide)⟩

/-- Claim C10: every processed event preserves the tracker invariant —
pending sustained releases are a subset of the active notes, and with the
pedal up no release is pending. -/
theorem claim_C10 (s : TrackerState) (msg : MidiMsg) (h : TrackerInv s) :
    TrackerInv (processMidiMessage s msg).1 :=
  process_inv s msg h

/-- Witness for C10 at the initial state and NoteOn(60). -/
theorem claim_C10_witness :
    TrackerInv initTracker ∧
    TrackerInv (processMidiMessage initTracker (.noteOn 60 64)).1 :=
  ⟨by decide, claim_C10 initTracker (.noteOn 60 64) (by decide)⟩

end MidiChord
